import Mathlib

/-!
Shallow embedding of the virtual row store core of the parallium
repository: the chunked line indexer (`buildIndex`), the lazy row fetch
(`getRow`, `getRows`), the RFC-4180-style line splitter (`parseCSVLine`)
and the store lifecycle (`loadFile`, `clear`, `isReady`).

Bytes are modelled as `Char` lists under a one-byte-per-character
encoding (every input considered is ASCII), so JS string indices and
`TextEncoder` byte lengths coincide.  Asynchronous reads are modelled as
fallible pure reads (`ByteSource.readOk` says which byte-range reads
succeed); a rejected read surfaces as `StoreErr.ioError`.
-/

namespace Parallium

/-- JS `String.prototype.trim`: strip leading and trailing whitespace. -/
def trimChars (l : List Char) : List Char :=
  ((l.dropWhile Char.isWhitespace).reverse.dropWhile Char.isWhitespace).reverse

/-- JS `str.split('\n')` on character lists (an empty string splits to one
empty piece; a trailing newline yields a trailing empty piece). -/
def splitNl : List Char → List (List Char)
  | [] => [[]]
  | c :: rest =>
    if c = '\n' then [] :: splitNl rest
    else
      match splitNl rest with
      | [] => [[c]]
      | s :: ss => (c :: s) :: ss

/-- JS `str.lastIndexOf('\n')`, as an `Option Nat`. -/
def lastNlIndex : List Char → Option Nat
  | [] => none
  | c :: rest =>
    match lastNlIndex rest with
    | some k => some (k + 1)
    | none => if c = '\n' then some 0 else none

/-- The character loop of `VirtualDataStore.parseCSVLine`: `inQ` is the
`insideQuotes` flag, `cell` the accumulated `currentCell`, and the last
argument the unread remainder of the line.  Each completed cell is
pushed through `trimChars`, exactly as the source calls
`currentCell.trim()`.  The loop consumes at least one character per
iteration, so a fuel of the line's length always suffices; the
fuel-exhausted branch is never reached from `parseCSVLine`. -/
def parseLoop : Nat → Bool → List Char → List Char → List (List Char)
  | 0, _, cell, _ => [trimChars cell]
  | _ + 1, _, cell, [] => [trimChars cell]
  | fuel + 1, inQ, cell, c :: rest =>
    if c = '"' then
      if inQ = true ∧ rest.head? = some '"' then
        parseLoop fuel inQ (cell ++ ['"']) rest.tail
      else parseLoop fuel (!inQ) cell rest
    else if c = ',' ∧ inQ = false then trimChars cell :: parseLoop fuel inQ [] rest
    else parseLoop fuel inQ (cell ++ [c]) rest

/-- `VirtualDataStore.parseCSVLine`. -/
def parseCSVLine (line : List Char) : List (List Char) :=
  parseLoop line.length false [] line

/-- Comparison definition for the spec sentence on trimming: the same
automaton as `parseLoop` but emitting each assembled cell verbatim,
without the source's `currentCell.trim()` call. -/
def parseRawLoop : Nat → Bool → List Char → List Char → List (List Char)
  | 0, _, cell, _ => [cell]
  | _ + 1, _, cell, [] => [cell]
  | fuel + 1, inQ, cell, c :: rest =>
    if c = '"' then
      if inQ = true ∧ rest.head? = some '"' then
        parseRawLoop fuel inQ (cell ++ ['"']) rest.tail
      else parseRawLoop fuel (!inQ) cell rest
    else if c = ',' ∧ inQ = false then cell :: parseRawLoop fuel inQ [] rest
    else parseRawLoop fuel inQ (cell ++ [c]) rest

/-- Untrimmed field contents of a line (comparison definition, see
`parseRawLoop`). -/
def parseCSVLineRaw (line : List Char) : List (List Char) :=
  parseRawLoop line.length false [] line

/-- Row index entry (interface `RowIndex` in the source): byte offset and
byte length of one row in the file. -/
structure RowIndex where
  offset : Nat
  length : Nat
deriving DecidableEq, Repr

/-- Parsed row data (interface `ParsedRow`). -/
structure ParsedRow where
  rowNumber : Nat
  cells : List (List Char)
deriving DecidableEq, Repr

/-- A byte source (JS `File`): the content bytes, plus which byte-range
reads succeed (`slice(a, b).text()` is an awaited promise that may
reject; `readOk a b = false` models such a rejection). -/
structure ByteSource where
  data : List Char
  readOk : Nat → Nat → Bool

/-- A source whose reads always succeed. -/
def pureSource (s : String) : ByteSource :=
  ⟨s.data, fun _ _ => true⟩

/-- Modelled from the spec: the source imports `./LRUCache.js`, whose file
is not among the source files.  Spec §4.1 describes a fixed-capacity
key-value store with least-recently-used eviction where `get` marks a hit
most recently used and `set` of a fresh key past capacity evicts exactly
the least recently used entry.  Entries are kept most-recent-first. -/
structure LRUCache where
  capacity : Nat
  entries : List (Nat × ParsedRow)
deriving DecidableEq, Repr

/-- Cache lookup: on a hit, the entry moves to the front (most recently
used) and its value is returned; on a miss the cache is unchanged. -/
def LRUCache.get (c : LRUCache) (k : Nat) : Option ParsedRow × LRUCache :=
  match c.entries.find? (fun p => p.1 == k) with
  | some p => (some p.2, ⟨c.capacity, p :: c.entries.filter (fun q => ! (q.1 == k))⟩)
  | none => (none, c)

/-- Cache insert or overwrite; trimming to `capacity` evicts the least
recently used entry when an insertion overflows. -/
def LRUCache.set (c : LRUCache) (k : Nat) (v : ParsedRow) : LRUCache :=
  ⟨c.capacity, ((k, v) :: c.entries.filter (fun q => ! (q.1 == k))).take c.capacity⟩

/-- Cache clear: drops all entries, keeps the capacity. -/
def LRUCache.clear (c : LRUCache) : LRUCache :=
  ⟨c.capacity, []⟩

/-- Current entry count of the cache. -/
def LRUCache.size (c : LRUCache) : Nat :=
  c.entries.length

/-- Errors surfaced by the store: the `Error('File not indexed yet')`
thrown by `getRow` before indexing, and a rejected byte-range read. -/
inductive StoreErr
  | notIndexedError
  | ioError
deriving DecidableEq, Repr

deriving instance DecidableEq for Except

/-- The mutable fields of `VirtualDataStore`. -/
structure Store where
  file : Option ByteSource
  rowIndex : List (Nat × RowIndex)
  rowCache : LRUCache
  totalRows : Nat
  isIndexed : Bool

/-- The constructor `new VirtualDataStore(cacheSize)`. -/
def mkStore (cacheSize : Nat) : Store :=
  ⟨none, [], ⟨cacheSize, []⟩, 0, false⟩

/-- The source constant `CHUNK_SIZE = 1024 * 1024`. -/
def CHUNK_SIZE : Nat := 1024 * 1024

/-- The local variables threaded through the `while` loop of
`buildIndex`. -/
structure BuildState where
  fileOffset : Nat
  currentRowStart : Nat
  bufferOffset : Nat
  rowNumber : Nat
  buffer : List Char
  index : List (Nat × RowIndex)
deriving Repr

/-- The inner `for` loop of `buildIndex` over the split lines: records an
index entry for every line, skipping only an empty final piece, and
returns the updated `(rowNumber, bufferOffset, index)`.  `base` is the
`currentRowStart` in force during the loop. -/
def processLines (base : Nat) :
    List (List Char) → Nat → Nat → List (Nat × RowIndex) →
    Nat × Nat × List (Nat × RowIndex)
  | [], rn, bo, idx => (rn, bo, idx)
  | [line], rn, bo, idx =>
    if line = [] then (rn, bo, idx)
    else (rn + 1, bo + (line.length + 1), idx ++ [(rn, ⟨base + bo, line.length + 1⟩)])
  | line :: next :: more, rn, bo, idx =>
    processLines base (next :: more) (rn + 1) (bo + (line.length + 1))
      (idx ++ [(rn, ⟨base + bo, line.length + 1⟩)])

/-- One iteration of the `while (fileOffset < this.file.size)` loop of
`buildIndex`, for a state with `fileOffset < size`. -/
def buildIter (src : ByteSource) (chunkSize : Nat) (st : BuildState) :
    Except StoreErr BuildState :=
  let size := src.data.length
  let chunkEnd := min (st.fileOffset + chunkSize) size
  if src.readOk st.fileOffset chunkEnd = false then .error .ioError
  else
    let text := (src.data.drop st.fileOffset).take (chunkEnd - st.fileOffset)
    let buffer := st.buffer ++ text
    match lastNlIndex buffer with
    | none =>
      if chunkEnd < size then .ok { st with buffer := buffer, fileOffset := chunkEnd }
      else
        let r := processLines st.currentRowStart (splitNl buffer) st.rowNumber st.bufferOffset st.index
        .ok { st with
                buffer := buffer
                fileOffset := chunkEnd
                rowNumber := r.1
                bufferOffset := r.2.1
                index := r.2.2 }
    | some k =>
      let completeText := buffer.take (k + 1)
      let r := processLines st.currentRowStart (splitNl completeText) st.rowNumber st.bufferOffset st.index
      .ok { fileOffset := chunkEnd
            currentRowStart := st.currentRowStart + r.2.1
            bufferOffset := 0
            rowNumber := r.1
            buffer := buffer.drop (k + 1)
            index := r.2.2 }

/-- The chunk-reading loop of `buildIndex`.  Each iteration with
`fileOffset < size` advances `fileOffset` by at least one byte whenever
`chunkSize ≥ 1`, so a fuel of `size` always suffices. -/
def buildLoop (src : ByteSource) (chunkSize : Nat) :
    Nat → BuildState → Except StoreErr Unit × BuildState
  | 0, st => (.ok (), st)
  | fuel + 1, st =>
    if st.fileOffset < src.data.length then
      match buildIter src chunkSize st with
      | .ok st' => buildLoop src chunkSize fuel st'
      | .error e => (.error e, st)
    else (.ok (), st)

/-- `VirtualDataStore.buildIndex`, parameterized by the chunk size: runs
the chunk loop from the initial state and then the trailing-buffer step,
returning the outcome, the index built so far, and the final row count
(which the source assigns to `totalRows` only on success). -/
def buildIndexWith (src : ByteSource) (chunkSize : Nat) :
    Except StoreErr Unit × List (Nat × RowIndex) × Nat :=
  match buildLoop src chunkSize src.data.length ⟨0, 0, 0, 0, [], []⟩ with
  | (.error e, st) => (.error e, st.index, st.rowNumber)
  | (.ok _, st) =>
    if trimChars st.buffer ≠ [] then
      (.ok (), st.index ++ [(st.rowNumber, ⟨st.currentRowStart + st.bufferOffset, st.buffer.length⟩)],
        st.rowNumber + 1)
    else (.ok (), st.index, st.rowNumber)

/-- `buildIndex` at the source's default chunk size. -/
def buildIndex (src : ByteSource) : Except StoreErr Unit × List (Nat × RowIndex) × Nat :=
  buildIndexWith src CHUNK_SIZE

/-- `VirtualDataStore.loadFile`: stores the file, clears the index, the
cache and the ready flag, then builds the index; on success it publishes
the new index and row count and sets the ready flag, on failure it leaves
the ready flag unset (and `totalRows` untouched, as the source assigns it
only at the end of `buildIndex`). -/
def loadFile (s : Store) (src : ByteSource) : Except StoreErr Unit × Store :=
  let s1 : Store :=
    { s with file := some src, rowIndex := [], rowCache := s.rowCache.clear, isIndexed := false }
  match buildIndex src with
  | (.ok _, idx, rows) => (.ok (), { s1 with rowIndex := idx, totalRows := rows, isIndexed := true })
  | (.error e, idx, _) => (.error e, { s1 with rowIndex := idx })

/-- `VirtualDataStore.getRow`: guard on the ready flag and the loaded
file, range check, cache lookup, then byte-range read, trim and parse,
caching the parsed row. -/
def getRow (s : Store) (n : Int) : Except StoreErr (Option ParsedRow × Store) :=
  match s.file with
  | none => .error .notIndexedError
  | some f =>
    if s.isIndexed = false then .error .notIndexedError
    else if n < 0 ∨ (s.totalRows : Int) ≤ n then .ok (none, s)
    else
      match s.rowCache.get n.toNat with
      | (some r, c) => .ok (some r, { s with rowCache := c })
      | (none, _) =>
        match s.rowIndex.lookup n.toNat with
        | none => .ok (none, s)
        | some e =>
          if f.readOk e.offset (e.offset + e.length) = false then .error .ioError
          else
            let txt := (f.data.drop e.offset).take e.length
            let row : ParsedRow := ⟨n.toNat, parseCSVLine (trimChars txt)⟩
            .ok (some row, { s with rowCache := s.rowCache.set n.toNat row })

/-- The `for (let i = startRow; i <= endRow; i++)` loop of `getRows`,
with the iteration count as fuel. -/
def getRowsGo (s : Store) (i : Int) : Nat → Except StoreErr (List ParsedRow × Store)
  | 0 => .ok ([], s)
  | fuel + 1 =>
    match getRow s i with
    | .error e => .error e
    | .ok (r, s') =>
      match getRowsGo s' (i + 1) fuel with
      | .error e => .error e
      | .ok (l, s'') =>
        .ok ((match r with | some row => row :: l | none => l), s'')

/-- `VirtualDataStore.getRows`: inclusive range fetch, skipping rows that
resolve to `none`. -/
def getRows (s : Store) (startRow endRow : Int) : Except StoreErr (List ParsedRow × Store) :=
  getRowsGo s startRow (endRow - startRow + 1).toNat

/-- `VirtualDataStore.getRowCount`. -/
def Store.getRowCount (s : Store) : Nat :=
  s.totalRows

/-- `VirtualDataStore.isReady`. -/
def Store.isReady (s : Store) : Bool :=
  s.isIndexed

/-- `VirtualDataStore.clear`. -/
def Store.clear (s : Store) : Store :=
  ⟨none, [], s.rowCache.clear, 0, false⟩

/-- The cells of `getRow`, forgetting the updated store (for concrete
evaluations). -/
def getRowCells (s : Store) (n : Int) : Except StoreErr (Option (List (List Char))) :=
  match getRow s n with
  | .error e => .error e
  | .ok (r, _) => .ok (r.map ParsedRow.cells)

/-- The integer list `startRow, startRow + 1, ..., endRow` traversed by
`getRows`. -/
def intRange (a b : Int) : List Int :=
  (List.range (b - a + 1).toNat).map (fun k : Nat => a + (k : Int))

/-- The prior state the spec says `loadFile` discards: index cleared,
cache cleared, ready flag false, source released. -/
def discardPrior (s : Store) : Store :=
  { s with
      file := none
      rowIndex := []
      rowCache := s.rowCache.clear
      isIndexed := false }

/-- A store that is not marked indexed rejects every row request. -/
theorem getRow_not_indexed (s : Store) (n : Int) (h : s.isIndexed = false) :
    getRow s n = .error .notIndexedError := by
  cases hf : s.file with
  | none => simp [getRow, hf]
  | some f => simp [getRow, hf, h]

/-- A cache hit returns an entry of the cache. -/
theorem lru_get_fst_mem (c : LRUCache) (k : Nat) (v : ParsedRow)
    (h : (c.get k).1 = some v) : (k, v) ∈ c.entries := by
  unfold LRUCache.get at h
  cases hf : c.entries.find? (fun p => p.1 == k) with
  | none => rw [hf] at h; simp at h
  | some p =>
    rw [hf] at h
    simp only at h
    have hm := List.mem_of_find?_eq_some hf
    have h1 : p.1 = k := by simpa using List.find?_some hf
    have h2 : p.2 = v := by simpa using h
    rw [← h1, ← h2]
    exact hm

/-- A cache lookup never introduces entries. -/
theorem lru_get_snd_subset (c : LRUCache) (k : Nat) :
    ∀ p ∈ ((c.get k).2).entries, p ∈ c.entries := by
  intro p hp
  unfold LRUCache.get at hp
  cases hf : c.entries.find? (fun q => q.1 == k) with
  | none => rw [hf] at hp; exact hp
  | some q =>
    rw [hf] at hp
    rcases List.mem_cons.mp hp with h | h
    · rw [h]; exact List.mem_of_find?_eq_some hf
    · exact List.mem_of_mem_filter h

/-- A cache insert only adds the inserted pair. -/
theorem lru_set_mem (c : LRUCache) (k : Nat) (v : ParsedRow) :
    ∀ p ∈ (c.set k v).entries, p = (k, v) ∨ p ∈ c.entries := by
  intro p hp
  unfold LRUCache.set at hp
  have hp' := List.take_subset _ _ hp
  rcases List.mem_cons.mp hp' with h | h
  · exact Or.inl h
  · exact Or.inr (List.mem_of_mem_filter h)

/-- The trimming parser is the untrimmed parser followed by a trim of
every cell (by induction on the fuel). -/
theorem parseLoop_eq_raw :
    ∀ (fuel : Nat) (inQ : Bool) (cell l : List Char),
    parseLoop fuel inQ cell l = (parseRawLoop fuel inQ cell l).map trimChars := by
  intro fuel
  induction fuel with
  | zero => intro inQ cell l; simp [parseLoop, parseRawLoop]
  | succ fuel ih =>
    intro inQ cell l
    cases l with
    | nil => simp [parseLoop, parseRawLoop]
    | cons c rest =>
      simp only [parseLoop, parseRawLoop]
      by_cases hq : c = '"'
      · rw [if_pos hq, if_pos hq]
        by_cases he : inQ = true ∧ rest.head? = some '"'
        · rw [if_pos he, if_pos he]
          exact ih inQ (cell ++ ['"']) rest.tail
        · rw [if_neg he, if_neg he]
          exact ih (!inQ) cell rest
      · rw [if_neg hq, if_neg hq]
        by_cases hc : c = ',' ∧ inQ = false
        · rw [if_pos hc, if_pos hc, ih inQ [] rest]
          simp
        · rw [if_neg hc, if_neg hc]
          exact ih inQ (cell ++ [c]) rest

/-- The parser always emits at least one cell. -/
theorem parseLoop_length_pos :
    ∀ (fuel : Nat) (inQ : Bool) (cell l : List Char),
    1 ≤ (parseLoop fuel inQ cell l).length := by
  intro fuel
  induction fuel with
  | zero => intro inQ cell l; simp [parseLoop]
  | succ fuel ih =>
    intro inQ cell l
    cases l with
    | nil => simp [parseLoop]
    | cons c rest =>
      simp only [parseLoop]
      by_cases hq : c = '"'
      · rw [if_pos hq]
        by_cases he : inQ = true ∧ rest.head? = some '"'
        · rw [if_pos he]; exact ih inQ (cell ++ ['"']) rest.tail
        · rw [if_neg he]; exact ih (!inQ) cell rest
      · rw [if_neg hq]
        by_cases hc : c = ',' ∧ inQ = false
        · rw [if_pos hc]; simp
        · rw [if_neg hc]; exact ih inQ (cell ++ [c]) rest

/-- Invariants of a ready store: the ready flag is set, the source is
loaded, every cached row is keyed by its own row number, the index is
dense below `totalRows`, and byte-range reads succeed.  All hold for the
store produced by a successful `loadFile` of an always-readable source. -/
structure ReadyInv (s : Store) (f : ByteSource) : Prop where
  indexed : s.isIndexed = true
  fileEq : s.file = some f
  cacheWF : ∀ p ∈ s.rowCache.entries, p.2.rowNumber = p.1
  dense : ∀ m : Nat, m < s.totalRows → (s.rowIndex.lookup m).isSome = true
  readsOk : ∀ x y, f.readOk x y = true

/-- On a ready store, an out-of-range row number yields `none` and leaves
the store unchanged. -/
theorem getRow_out_of_range (s : Store) (f : ByteSource) (n : Int)
    (h1 : s.isIndexed = true) (h2 : s.file = some f)
    (hn : n < 0 ∨ (s.totalRows : Int) ≤ n) :
    getRow s n = .ok (none, s) := by
  simp only [getRow, h2]
  rw [if_neg (by simp [h1]), if_pos hn]

/-- On a ready store with a dense index and succeeding reads, an in-range
row number yields a row carrying that row number, and all invariants are
preserved. -/
theorem getRow_in_range (s : Store) (f : ByteSource) (n : Int)
    (h : ReadyInv s f) (h0 : 0 ≤ n) (hlt : n < (s.totalRows : Int)) :
    ∃ row s', getRow s n = .ok (some row, s') ∧ row.rowNumber = n.toNat ∧
      ReadyInv s' f ∧ s'.totalRows = s.totalRows := by
  have hguard : ¬ (n < 0 ∨ (s.totalRows : Int) ≤ n) := by omega
  rcases h with ⟨h1, h2, hwf, hdense, hreads⟩
  rcases hcg : s.rowCache.get n.toNat with ⟨ro, c⟩
  cases ro with
  | some r =>
    have hfst : (s.rowCache.get n.toNat).1 = some r := by rw [hcg]
    refine ⟨r, { s with rowCache := c }, ?_, hwf _ (lru_get_fst_mem _ _ _ hfst), ?_, rfl⟩
    · simp only [getRow, h2]
      rw [if_neg (by simp [h1]), if_neg hguard, hcg]
    · refine ⟨h1, h2, ?_, hdense, hreads⟩
      intro p hp
      have hp2 : p ∈ ((s.rowCache.get n.toNat).2).entries := by rw [hcg]; exact hp
      exact hwf p (lru_get_snd_subset _ _ p hp2)
  | none =>
    have hm : n.toNat < s.totalRows := by omega
    have hsome := hdense n.toNat hm
    cases hl : s.rowIndex.lookup n.toNat with
    | none => rw [hl] at hsome; simp at hsome
    | some e =>
      refine ⟨⟨n.toNat, parseCSVLine (trimChars ((f.data.drop e.offset).take e.length))⟩,
        { s with rowCache := (s.rowCache.set n.toNat
            ⟨n.toNat, parseCSVLine (trimChars ((f.data.drop e.offset).take e.length))⟩) },
        ?_, rfl, ?_, rfl⟩
      · simp only [getRow, h2]
        rw [if_neg (by simp [h1]), if_neg hguard, hcg, hl]
        simp [hreads]
      · refine ⟨h1, h2, ?_, hdense, hreads⟩
        intro p hp
        rcases lru_set_mem _ _ _ p hp with hp' | hp'
        · rw [hp']
        · exact hwf p hp'

/-- The `getRows` loop on a ready store succeeds and returns exactly the
in-range rows of the traversed window, keyed in ascending order. -/
theorem getRowsGo_ok (f : ByteSource) :
    ∀ (fuel : Nat) (s : Store) (i : Int), ReadyInv s f →
    ∃ l s', getRowsGo s i fuel = .ok (l, s') ∧
      l.map ParsedRow.rowNumber =
        (((List.range fuel).map (fun k : Nat => i + (k : Int))).filter
          (fun j => decide (0 ≤ j ∧ j < (s.totalRows : Int)))).map Int.toNat := by
  intro fuel
  induction fuel with
  | zero => intro s i _; exact ⟨[], s, rfl, rfl⟩
  | succ fuel ih =>
    intro s i h
    have hfun : ((fun k : Nat => i + (k : Int)) ∘ Nat.succ) =
        fun k : Nat => (i + 1) + (k : Int) := by
      funext k
      simp only [Function.comp_apply]
      push_cast
      ring
    have hrange : (List.range (fuel + 1)).map (fun k : Nat => i + (k : Int)) =
        i :: (List.range fuel).map (fun k : Nat => (i + 1) + (k : Int)) := by
      rw [List.range_succ_eq_map, List.map_cons, List.map_map, hfun]
      norm_num
    by_cases hin : 0 ≤ i ∧ i < (s.totalRows : Int)
    · rcases getRow_in_range s f i h hin.1 hin.2 with ⟨row, s1, hg, hrow, hinv1, htot⟩
      rcases ih s1 (i + 1) hinv1 with ⟨l1, s2, hgo, hmap⟩
      rw [htot] at hmap
      refine ⟨row :: l1, s2, ?_, ?_⟩
      · simp only [getRowsGo, hg, hgo]
      · rw [hrange, List.filter_cons, if_pos (by simpa using hin),
          List.map_cons, List.map_cons, hrow, hmap]
    · have hn : i < 0 ∨ (s.totalRows : Int) ≤ i := by omega
      rcases ih s (i + 1) h with ⟨l1, s2, hgo, hmap⟩
      refine ⟨l1, s2, ?_, ?_⟩
      · simp only [getRowsGo, getRow_out_of_range s f i h.indexed h.fileEq hn, hgo]
      · rw [hrange, List.filter_cons, if_neg (by simpa using hin)]
        exact hmap

/-- C1: the claim that a successful `loadFile` on a source with R
non-blank lines yields a dense index `0..R-1` with `totalRows = R` whose
ranges reconstruct the content fails on the code: for the one-line,
terminator-free source "ab" (R = 1), `loadFile` succeeds with
`totalRows = 2` and entries `[0, 3)` and `[3, 5)`, which overrun the
2-byte source and double-index the single line. -/
theorem c1_index_completeness_fails_on_unterminated_source :
    (loadFile (mkStore 1000) (pureSource "ab")).1 = .ok () ∧
    (loadFile (mkStore 1000) (pureSource "ab")).2.totalRows = 2 ∧
    (loadFile (mkStore 1000) (pureSource "ab")).2.rowIndex =
      [(0, ⟨0, 3⟩), (1, ⟨3, 2⟩)] ∧
    ("ab".data.length = 2) := by
  decide

/-- C2: the claim that indexing is identical for every chunk size fails
on the code: for the source "a\nb", the whole-file chunking (size 3, and
likewise the default `CHUNK_SIZE`) yields two rows, while byte-at-a-time
chunking (size 1) yields three rows with different entries. -/
theorem c2_chunk_invariance_fails :
    buildIndexWith (pureSource "a\nb") 3 =
      (.ok (), [(0, ⟨0, 2⟩), (1, ⟨2, 1⟩)], 2) ∧
    buildIndexWith (pureSource "a\nb") CHUNK_SIZE =
      (.ok (), [(0, ⟨0, 2⟩), (1, ⟨2, 1⟩)], 2) ∧
    buildIndexWith (pureSource "a\nb") 1 =
      (.ok (), [(0, ⟨0, 2⟩), (1, ⟨2, 2⟩), (2, ⟨4, 1⟩)], 3) ∧
    buildIndexWith (pureSource "a\nb") 1 ≠ buildIndexWith (pureSource "a\nb") CHUNK_SIZE := by
  decide

/-- C3: the claim that the source "a,b\n1,2\n\n" loads with
`totalRows = 2` and no row for the blank line fails on the code:
`loadFile` succeeds with `totalRows = 3` and the blank line is indexed
as row 2 with entry `{offset 8, length 1}`. -/
theorem c3_blank_trailing_line_is_indexed :
    (loadFile (mkStore 1000) (pureSource "a,b\n1,2\n\n")).1 = .ok () ∧
    (loadFile (mkStore 1000) (pureSource "a,b\n1,2\n\n")).2.totalRows = 3 ∧
    (loadFile (mkStore 1000) (pureSource "a,b\n1,2\n\n")).2.rowIndex.lookup 2 =
      some ⟨8, 1⟩ := by
  decide

/-- C4: the source "a,b,c\n1,\"x,y\",3\n" loads with `totalRows = 2`,
row 0 parses to ["a","b","c"] and row 1 to ["1","x,y","3"]: a comma
inside quotes is literal, and a doubled quote inside quotes denotes one
literal quote (checked on "a""b" as well). -/
theorem c4_quoted_field_roundtrip :
    (loadFile (mkStore 1000) (pureSource "a,b,c\n1,\"x,y\",3\n")).1 = .ok () ∧
    (loadFile (mkStore 1000) (pureSource "a,b,c\n1,\"x,y\",3\n")).2.totalRows = 2 ∧
    getRowCells (loadFile (mkStore 1000) (pureSource "a,b,c\n1,\"x,y\",3\n")).2 0 =
      .ok (some ["a".data, "b".data, "c".data]) ∧
    getRowCells (loadFile (mkStore 1000) (pureSource "a,b,c\n1,\"x,y\",3\n")).2 1 =
      .ok (some ["1".data, "x,y".data, "3".data]) ∧
    parseCSVLine ("\"a\"\"b\"".data) = ["a\"b".data] := by
  decide

/-- C5 (counterexample): the claim that the content of a quoted field is
returned verbatim, including leading or trailing spaces inside the
quotes, fails: the line `" a ",b` parses to ["a", "b"], not
[" a ", "b"] — the source trims the whole assembled cell. -/
theorem c5_quoted_edge_whitespace_trimmed :
    parseCSVLine ("\" a \",b".data) = ["a".data, "b".data] ∧
    parseCSVLine ("\" a \",b".data) ≠ [" a ".data, "b".data] := by
  decide

/-- C5 (amended): field parsing trims the surrounding whitespace of each
assembled field after quote removal — every cell of `parseCSVLine` is
the corresponding untrimmed field content (quotes processed, nothing
trimmed) with its leading and trailing whitespace removed, whether or
not that whitespace was quoted. -/
theorem c5_trim_applies_after_quote_removal (line : List Char) :
    parseCSVLine line = (parseCSVLineRaw line).map trimChars :=
  parseLoop_eq_raw line.length false [] line

/-- C6: the claim that a final line with no trailing terminator is
assigned exactly one row fails on the code: for the source "x" the
final (only) line is assigned two rows, `{0, 2}` (a phantom terminator
byte included) and `{2, 1}` (past the end of the source).  The claim's
concrete example does hold: "p,q\nr,s" loads with `totalRows = 2` and
row 1 parses to ["r","s"]. -/
theorem c6_unterminated_final_line_doubly_indexed :
    (loadFile (mkStore 1000) (pureSource "x")).1 = .ok () ∧
    (loadFile (mkStore 1000) (pureSource "x")).2.totalRows = 2 ∧
    (loadFile (mkStore 1000) (pureSource "x")).2.rowIndex =
      [(0, ⟨0, 2⟩), (1, ⟨2, 1⟩)] ∧
    (loadFile (mkStore 1000) (pureSource "p,q\nr,s")).2.totalRows = 2 ∧
    getRowCells (loadFile (mkStore 1000) (pureSource "p,q\nr,s")).2 1 =
      .ok (some ["r".data, "s".data]) := by
  decide

/-- C7: on every store that is not ready, `getRow` fails with the
not-indexed error for every row number; a freshly constructed store and
a cleared store are not ready. -/
theorem c7_not_ready_getRow_fails (s : Store) (n : Int)
    (h : s.isReady = false) :
    getRow s n = .error .notIndexedError ∧
    s.clear.isReady = false ∧
    (mkStore 1000).isReady = false :=
  ⟨getRow_not_indexed s n h, rfl, rfl⟩

/-- Witness for C7 at a cleared store and row 0. -/
theorem c7_not_ready_getRow_fails_witness :
    getRow (Store.clear (loadFile (mkStore 1000) (pureSource "a\n")).2) 0 =
      .error .notIndexedError ∧
    (Store.clear (loadFile (mkStore 1000) (pureSource "a\n")).2).clear.isReady = false ∧
    (mkStore 1000).isReady = false :=
  c7_not_ready_getRow_fails (Store.clear (loadFile (mkStore 1000) (pureSource "a\n")).2) 0 rfl

/-- C8: on a ready store (flag set, source loaded, cached rows keyed by
their own row number, index dense below `totalRows`, reads succeeding),
any out-of-range row number makes `getRow` return `none` without error
and without touching the store, and `getRows` succeeds, skipping the
out-of-range positions of the inclusive window and returning exactly
the in-range rows in ascending row order. -/
theorem c8_out_of_range_none_and_ordered_range_fetch
    (s : Store) (f : ByteSource) (n a b : Int)
    (h1 : s.isIndexed = true) (h2 : s.file = some f)
    (hwf : ∀ p ∈ s.rowCache.entries, p.2.rowNumber = p.1)
    (hdense : ∀ m : Nat, m < s.totalRows → (s.rowIndex.lookup m).isSome = true)
    (hreads : ∀ x y, f.readOk x y = true)
    (hn : n < 0 ∨ (s.totalRows : Int) ≤ n) :
    getRow s n = .ok (none, s) ∧
    ∃ l s', getRows s a b = .ok (l, s') ∧
      l.map ParsedRow.rowNumber =
        ((intRange a b).filter
          (fun j => decide (0 ≤ j ∧ j < (s.totalRows : Int)))).map Int.toNat :=
  ⟨getRow_out_of_range s f n h1 h2 hn,
    getRowsGo_ok f ((b - a + 1).toNat) s a ⟨h1, h2, hwf, hdense, hreads⟩⟩

/-- Witness for C8 on a loaded two-row store, row number 5 and the
window [-1, 3]. -/
theorem c8_out_of_range_witness :
    getRow (loadFile (mkStore 1000) (pureSource "a\nb\n")).2 5 =
      .ok (none, (loadFile (mkStore 1000) (pureSource "a\nb\n")).2) ∧
    ∃ l s', getRows (loadFile (mkStore 1000) (pureSource "a\nb\n")).2 (-1) 3 = .ok (l, s') ∧
      l.map ParsedRow.rowNumber =
        ((intRange (-1) 3).filter
          (fun j => decide (0 ≤ j ∧
            j < ((loadFile (mkStore 1000) (pureSource "a\nb\n")).2.totalRows : Int)))).map Int.toNat :=
  c8_out_of_range_none_and_ordered_range_fetch
    (loadFile (mkStore 1000) (pureSource "a\nb\n")).2 (pureSource "a\nb\n")
    5 (-1) 3 rfl rfl (by decide) (by decide) (fun _ _ => rfl) (Or.inr (by decide))

/-- C9: `loadFile` ignores the prior row index, row cache contents,
ready flag and source — loading into any store is the same as loading
into that store with those discarded — and when indexing fails the
resulting store has the ready flag unset, so every `getRow` fails with
the not-indexed error and no partial index is observable. -/
theorem c9_loadFile_discards_state_and_failure_leaves_unindexed
    (s : Store) (src srcF : ByteSource) (e : StoreErr) (n : Int)
    (h : (loadFile s srcF).1 = .error e) :
    loadFile s src = loadFile (discardPrior s) src ∧
    (loadFile s srcF).2.isIndexed = false ∧
    getRow (loadFile s srcF).2 n = .error .notIndexedError := by
  refine ⟨rfl, ?_⟩
  rcases hb : buildIndex srcF with ⟨res, idx, rn⟩
  simp only [loadFile, hb] at h ⊢
  cases res with
  | ok u => simp at h
  | error e2 => exact ⟨rfl, getRow_not_indexed _ n rfl⟩

/-- Witness for C9: a dirty ready store, a loadable source and a source
whose first chunk read rejects. -/
theorem c9_loadFile_discards_witness :
    loadFile (loadFile (mkStore 7) (pureSource "old\n")).2 (pureSource "x\ny\n") =
      loadFile (discardPrior (loadFile (mkStore 7) (pureSource "old\n")).2)
        (pureSource "x\ny\n") ∧
    (loadFile (loadFile (mkStore 7) (pureSource "old\n")).2
      ⟨"ab".data, fun _ _ => false⟩).2.isIndexed = false ∧
    getRow (loadFile (loadFile (mkStore 7) (pureSource "old\n")).2
      ⟨"ab".data, fun _ _ => false⟩).2 0 = .error .notIndexedError :=
  c9_loadFile_discards_state_and_failure_leaves_unindexed
    (loadFile (mkStore 7) (pureSource "old\n")).2 (pureSource "x\ny\n")
    ⟨"ab".data, fun _ _ => false⟩ .ioError 0 (by decide)

/-- C10: field parsing is total and never yields an empty field list —
`parseCSVLine` returns at least one cell on every line — and every
`ParsedRow` that `getRow` returns has at least one cell, provided every
row already in the cache does (which holds in every reachable store,
as only parse results are cached). -/
theorem c10_parse_total_and_rows_nonempty
    (l : List Char) (s : Store) (n : Int) (r : ParsedRow) (s' : Store)
    (hc : ∀ p ∈ s.rowCache.entries, 1 ≤ p.2.cells.length)
    (h : getRow s n = .ok (some r, s')) :
    1 ≤ (parseCSVLine l).length ∧ 1 ≤ r.cells.length := by
  refine ⟨parseLoop_length_pos l.length false [] l, ?_⟩
  cases hf : s.file with
  | none => simp [getRow, hf] at h
  | some f =>
    simp only [getRow, hf] at h
    by_cases hi : s.isIndexed = false
    · rw [if_pos hi] at h; simp at h
    · rw [if_neg hi] at h
      by_cases hr : n < 0 ∨ (s.totalRows : Int) ≤ n
      · rw [if_pos hr] at h; simp at h
      · rw [if_neg hr] at h
        rcases hcg : s.rowCache.get n.toNat with ⟨ro, c⟩
        cases ro with
        | some r0 =>
          simp only [hcg, Except.ok.injEq, Prod.mk.injEq, Option.some.injEq] at h
          have hfst : (s.rowCache.get n.toNat).1 = some r0 := by rw [hcg]
          have := hc _ (lru_get_fst_mem _ _ _ hfst)
          rw [← h.1]
          exact this
        | none =>
          simp only [hcg] at h
          cases hl : s.rowIndex.lookup n.toNat with
          | none => simp [hl] at h
          | some e =>
            simp only [hl] at h
            by_cases hro : f.readOk e.offset (e.offset + e.length) = false
            · rw [if_pos hro] at h; simp at h
            · rw [if_neg hro] at h
              simp only [Except.ok.injEq, Prod.mk.injEq, Option.some.injEq] at h
              rw [← h.1]
              exact parseLoop_length_pos _ false [] _

/-- Witness for C10: the empty line, and row 0 of a loaded store. -/
theorem c10_parse_total_witness :
    1 ≤ (parseCSVLine []).length ∧
    1 ≤ (ParsedRow.mk 0 ["a".data]).cells.length :=
  c10_parse_total_and_rows_nonempty [] (loadFile (mkStore 1000) (pureSource "a\nb\n")).2 0
    ⟨0, ["a".data]⟩
    { (loadFile (mkStore 1000) (pureSource "a\nb\n")).2 with
        rowCache := ⟨1000, [(0, ⟨0, ["a".data]⟩)]⟩ }
    (by decide) rfl

end Parallium
